import Mathlib

/-!
Verification development for the LehrFEM++ hierarchical finite-element core:
the reference-element topology (`RefEl`, file lib/lf/base/ref_el.h) and the
hierarchical shape-function bases (`LegendrePoly`, `JacobiPoly`,
`FeHierarchicSegment`, `FeHierarchicTria`, `FeHierarchicQuad`).

The C++ code is shallowly embedded:
* `double` scalars are modelled by an arbitrary field (instantiated at `ℚ`
  for decidable claims and at `ℝ` where irrational evaluation nodes occur);
* `char`-typed topology arguments are modelled by `ℤ` (so that negative
  arguments can be expressed);
* functions guarded by `LF_ASSERT`-style assertions return `Option`,
  with `none` standing for the InvalidArgument failure;
* Eigen matrices that are filled row-by-row (each row written exactly once)
  are modelled as functions from the row index to the row's value at an
  evaluation point; the set of row indices actually written is recorded
  separately where a claim is about bounds.
-/

namespace lf

/-- The relative orientation of an edge (`lf::mesh::Orientation`): whether
the local edge traversal agrees with the canonical global direction. -/
inductive Orientation where
  | positive : Orientation
  | negative : Orientation
deriving DecidableEq, Repr

/-- `lf::base::RefElType`: the four kinds of reference elements. -/
inductive RefElType where
  | kPoint : RefElType
  | kSegment : RefElType
  | kTria : RefElType
  | kQuad : RefElType
deriving DecidableEq, Repr

namespace RefEl

/-- `RefEl::DimensionImpl` / `RefEl::Dimension`: dimension of each kind
(0, 1, 2, 2). -/
def Dimension : RefElType → ℤ
  | .kPoint => 0
  | .kSegment => 1
  | .kTria => 2
  | .kQuad => 2

/-- `RefEl::NumNodes`: number of nodes of each kind (1, 2, 3, 4). -/
def NumNodes : RefElType → ℤ
  | .kPoint => 1
  | .kSegment => 2
  | .kTria => 3
  | .kQuad => 4

/-- `RefEl::NumSubEntities(sub_codim)`.  The two `LF_ASSERT_MSG_CONSTEXPR`
guards (`sub_codim >= 0`, `sub_codim <= Dimension()`) are modelled as
`none`; the unreachable `default:` branch (a point queried at
`sub_codim = 0` is already handled) is also `none`. -/
def NumSubEntities (t : RefElType) (sub_codim : ℤ) : Option ℤ :=
  if sub_codim < 0 then none
  else if sub_codim > Dimension t then none
  else if sub_codim = 0 then some 1
  else
    match t with
    | .kSegment => some 2
    | .kTria => some 3
    | .kQuad => some 4
    | .kPoint => none

/-- `RefEl::SubType(sub_codim, sub_index)`.  The four `LF_ASSERT` guards are
modelled as `none`, then the three branch rules of the source, then the
unreachable `LF_VERIFY_MSG(false, ...)` as `none`. -/
def SubType (t : RefElType) (sub_codim sub_index : ℤ) : Option RefElType :=
  if sub_codim < 0 then none
  else if sub_codim > Dimension t then none
  else if sub_index < 0 then none
  else
    match NumSubEntities t sub_codim with
    | none => none
    | some n =>
      if sub_index ≥ n then none
      else if sub_codim = 0 then some t
      else if sub_codim = Dimension t then some .kPoint
      else if Dimension t - sub_codim = 1 then some .kSegment
      else none

/-- `RefEl::sub_sub_entity_index_tria_`: the triangle's edge-endpoint
lookup table, exactly as written in the source. -/
def sub_sub_entity_index_tria : List (List ℤ) :=
  [[0, 1], [1, 2], [2, 3]]

/-- `RefEl::sub_sub_entity_index_quad_`: the quadrilateral's edge-endpoint
lookup table, exactly as written in the source. -/
def sub_sub_entity_index_quad : List (List ℤ) :=
  [[0, 1], [1, 2], [2, 3], [3, 0]]

/-- `RefEl::SubSubEntity2SubEntity(sub_codim, sub_index, sub_sub_codim,
sub_sub_index)`.  All `LF_ASSERT_MSG_CONSTEXPR` guards are modelled as
`none` (note the source checks `sub_index <= NumSubEntities`, with `<=`,
exactly as written), then the source's branch structure. -/
def SubSubEntity2SubEntity (t : RefElType)
    (sub_codim sub_index sub_sub_codim sub_sub_index : ℤ) : Option ℤ :=
  if sub_codim < 0 then none
  else if sub_codim > Dimension t then none
  else if sub_index < 0 then none
  else
    match NumSubEntities t sub_codim with
    | none => none
    | some n =>
      if sub_index > n then none
      else if sub_sub_codim < 0 then none
      else if sub_sub_codim > Dimension t - sub_codim then none
      else if sub_sub_index < 0 then none
      else
        match SubType t sub_codim sub_index with
        | none => none
        | some st =>
          match NumSubEntities st sub_sub_codim with
          | none => none
          | some m =>
            if sub_sub_index ≥ m then none
            else if t = .kPoint then some 0
            else if sub_codim = 0 then some sub_sub_index
            else if sub_codim = Dimension t then some sub_index
            else
              match t with
              | .kTria =>
                some (((sub_sub_entity_index_tria.getD sub_index.toNat
                  []).getD sub_sub_index.toNat 0))
              | .kQuad =>
                some (((sub_sub_entity_index_quad.getD sub_index.toNat
                  []).getD sub_sub_index.toNat 0))
              | _ => none

end RefEl

namespace LegendrePoly

variable {K : Type} [Field K]

/-- The loop state of `LegendrePoly::eval`: after `k` executions of the
loop body (with the argument already remapped to `t = 2x-1`) the pair
holds `(Ljm1, Lj)`.  The loop body computes
`Ljp1 = ((2j+1)*x*Lj - j*Ljm1)/(j+1)` for `j = k+1`. -/
def legPair (t : K) : ℕ → K × K
  | 0 => (1, t)
  | k + 1 =>
    ((legPair t k).2,
      ((2 * ((k : K) + 1) + 1) * t * (legPair t k).2
        - ((k : K) + 1) * (legPair t k).1) / ((k : K) + 2))

/-- `LegendrePoly::eval(n, x)`: the `n`-th Legendre polynomial on `[0,1]`
(remapped internally to `t = 2x-1`), computed by the three-term recurrence
of the source. -/
def eval (n : ℕ) (x : K) : K :=
  match n with
  | 0 => 1
  | m + 1 => (legPair (2 * x - 1) m).2

/-- The loop state of `LegendrePoly::integral` for `n ≥ 2`: after `k`
executions of the loop body the triple holds `(Ljm2, Ljm1, Lj)`, seeded
with `(L0, L1, L2) = (1, t, (3t²-1)/2)`.  The loop body runs for
`j = k+2`. -/
def legTriple (t : K) : ℕ → K × K × K
  | 0 => (1, t, (3 * t * t - 1) / 2)
  | k + 1 =>
    ((legTriple t k).2.1, (legTriple t k).2.2,
      ((2 * ((k : K) + 2) + 1) * t * (legTriple t k).2.2
        - ((k : K) + 2) * (legTriple t k).2.1) / ((k : K) + 3))

/-- `LegendrePoly::integral(n, x)`: the integrated Legendre polynomial,
`-1` for `n = 0`, `x` for `n = 1`, and `(L_n - L_{n-2})/(4n-2)` (in the
remapped variable) for `n ≥ 2`, exactly as the source's loop computes. -/
def integral (n : ℕ) (x : K) : K :=
  match n with
  | 0 => -1
  | 1 => x
  | m + 2 =>
    ((legTriple (2 * x - 1) m).2.2 - (legTriple (2 * x - 1) m).1)
      / (4 * ((m : K) + 2) - 2)

end LegendrePoly

namespace JacobiPoly

variable {K : Type} [Field K]

/-- The loop state of `JacobiPoly::eval`: after `k` executions of the loop
body the pair holds `(Pjm1, Pj)`, seeded with `(1, (2+α)x-1)`.  The loop
body computes `Pjp1` from the four coefficient formulas of the source at
`j = k+1`. -/
def jacPair (alpha x : K) : ℕ → K × K
  | 0 => (1, (2 + alpha) * x - 1)
  | k + 1 =>
    ((jacPair alpha x k).2,
      (((2 * ((k : K) + 2) + alpha - 1)
          * (((2 * ((k : K) + 2) + alpha) * (2 * ((k : K) + 2) + alpha - 2))
              * (2 * x - 1) + alpha * alpha)
          * (jacPair alpha x k).2
        - (2 * (((k : K) + 2) + alpha - 1) * ((k : K) + 1)
            * (2 * ((k : K) + 2) + alpha))
          * (jacPair alpha x k).1)
        / (2 * ((k : K) + 2) * (((k : K) + 2) + alpha)
            * (2 * ((k : K) + 2) + alpha - 2))))

/-- `JacobiPoly::eval(n, alpha, x)`. -/
def eval (n : ℕ) (alpha x : K) : K :=
  match n with
  | 0 => 1
  | m + 1 => (jacPair alpha x m).2

/-- The loop state of `JacobiPoly::integral` for `n ≥ 2`: after `k`
executions of the loop body the triple holds `(Pjm2, Pjm1, Pj)`, seeded
with `(P0, P1, P2)` where `P2` is computed from the pre-loop coefficient
formulas of the source (the literal-`2` instances of `ajp1P`, `bjp1P`,
`cjp1P`, `djp1P`).  The loop body runs for `j = k+2`. -/
def jacTriple (alpha x : K) : ℕ → K × K × K
  | 0 =>
    (1, (2 + alpha) * x - 1,
      ((2 * 2 + alpha - 1)
          * (((2 * 2 + alpha) * (2 * 2 + alpha - 2)) * (2 * x - 1)
              + alpha * alpha)
          * ((2 + alpha) * x - 1)
        - (2 * (2 + alpha - 1) * (2 - 1) * (2 * 2 + alpha)) * 1)
        / (2 * 2 * (2 + alpha) * (2 * 2 + alpha - 2)))
  | k + 1 =>
    ((jacTriple alpha x k).2.1, (jacTriple alpha x k).2.2,
      (((2 * ((k : K) + 3) + alpha - 1)
          * (((2 * ((k : K) + 3) + alpha) * (2 * ((k : K) + 3) + alpha - 2))
              * (2 * x - 1) + alpha * alpha)
          * (jacTriple alpha x k).2.2
        - (2 * (((k : K) + 3) + alpha - 1) * ((k : K) + 2)
            * (2 * ((k : K) + 3) + alpha))
          * (jacTriple alpha x k).2.1)
        / (2 * ((k : K) + 3) * (((k : K) + 3) + alpha)
            * (2 * ((k : K) + 3) + alpha - 2))))

/-- `JacobiPoly::integral(n, alpha, x)`: `-1` for `n = 0`, `x` for
`n = 1`, otherwise the final combination
`anL*Pj + bnL*Pjm1 - cnL*Pjm2` of the source. -/
def integral (n : ℕ) (alpha x : K) : K :=
  match n with
  | 0 => -1
  | 1 => x
  | m + 2 =>
    let nn : K := (m : K) + 2
    ((nn + alpha) / ((2 * nn + alpha - 1) * (2 * nn + alpha)))
        * (jacTriple alpha x m).2.2
      + (alpha / ((2 * nn + alpha - 2) * (2 * nn + alpha)))
        * (jacTriple alpha x m).2.1
      - ((nn - 1) / ((2 * nn + alpha - 2) * (2 * nn + alpha - 1)))
        * (jacTriple alpha x m).1

end JacobiPoly

/-- Modelled from the spec: `chebyshevNodes(n)` is declared in the header
but its definition (a `.cc` file) is not part of the provided sources.
Per spec §4.4 the evaluation nodes are "`p−1` Chebyshev nodes of the
second kind mapped to `[0,1]`": node `k` (0-based, `k < n`) is
`(1 + cos((k+1)·π/(n+1)))/2`. -/
noncomputable def chebyshevNodes (n : ℕ) : List ℝ :=
  (List.range n).map
    (fun (k : ℕ) =>
      (1 + Real.cos (((k : ℝ) + 1) * Real.pi / ((n : ℝ) + 1))) / 2)

/-- Modelled from the spec: Eigen's
`fullPivHouseholderQr().solve` (an external library call, spec §4.7
"solved via a numerically robust factorization") — the exact solution of
the square linear system `A c = b` (matrix inverse applied to `b`;
`A⁻¹` is the zero matrix when `A` is singular, the defensive
NumericalDegeneracy case of the spec). -/
noncomputable def qrSolve {n : ℕ} (A : Matrix (Fin n) (Fin n) ℝ)
    (b : Fin n → ℝ) : Fin n → ℝ :=
  A⁻¹.mulVec b

namespace FeHierarchicSegment

variable {K : Type} [Field K]

/-- `FeHierarchicSegment::NumRefShapeFunctions()`: `degree_ + 1`.
The stored orientation span `rel_orient_` is part of the state but is not
read by the method. -/
def NumRefShapeFunctions (degree : ℕ) (_rel_orient : List Orientation) : ℕ :=
  degree + 1

/-- `FeHierarchicSegment::NumRefShapeFunctions(codim)`:
`codim == 0 ? degree_ - 1 : 1`. -/
def NumRefShapeFunctionsCodim (degree : ℕ) (_rel_orient : List Orientation)
    (codim : ℕ) : ℕ :=
  if codim = 0 then degree - 1 else 1

/-- Row `r` of `FeHierarchicSegment::EvalReferenceShapeFunctions` at one
evaluation point `x` (the result matrix has one column per point and the
rows are written exactly once each):
row 0 is `1-x`, row 1 is `x`, and the loop writes row `i+2` with the
integrated Legendre polynomial of degree `i+2` for `i < degree_ - 1`.
The row map extends past the allocated `NumRefShapeFunctions()` rows; the
exact set of rows written is `writtenRows`. -/
def EvalReferenceShapeFunctions (degree : ℕ) (_rel_orient : List Orientation)
    (x : K) : ℕ → K
  | 0 => 1 - x
  | 1 => x
  | i + 2 => LegendrePoly.integral (i + 2) x

/-- Row `r` of `FeHierarchicSegment::GradientsReferenceShapeFunctions` at
one evaluation point `x`: row 0 is `-1`, row 1 is `1`, the loop writes
row `i+2` with the Legendre polynomial of degree `i+1`. -/
def GradientsReferenceShapeFunctions (degree : ℕ)
    (_rel_orient : List Orientation) (x : K) : ℕ → K
  | 0 => -1
  | 1 => 1
  | i + 2 => LegendrePoly.eval (i + 1) x

/-- The row indices written by `EvalReferenceShapeFunctions` (and,
identically, by `GradientsReferenceShapeFunctions`): rows 0 and 1
unconditionally, and rows `i+2` for `i < degree_ - 1`, where `degree_`
is `unsigned`, so that `degree_ - 1` is computed modulo `2^32` (for
`degree_ = 0` it wraps to `2^32 - 1`). -/
def writtenRows (degree : ℕ) : List ℕ :=
  [0, 1] ++ (List.range ((degree + (2 ^ 32 - 1)) % 2 ^ 32)).map (· + 2)

/-- `FeHierarchicSegment::ComputeEvaluationNodes` /
`EvaluationNodes()`: node 0 is the endpoint 0, node 1 the endpoint 1,
and for `degree_ > 1` the block of `degree_ - 1` Chebyshev nodes follows. -/
noncomputable def EvaluationNodes (degree : ℕ)
    (_rel_orient : List Orientation) : List ℝ :=
  [0, 1] ++ (if 1 < degree then chebyshevNodes (degree - 1) else [])

/-- `FeHierarchicSegment::NodalValuesToDofs(nodevals)`: solves
`Vᵀ c = nodevals` where `V` is `EvalReferenceShapeFunctions` evaluated at
`EvaluationNodes()` (row = shape function, column = node), via the
(spec-modelled) exact solver `qrSolve`. -/
noncomputable def NodalValuesToDofs (degree : ℕ)
    (rel_orient : List Orientation) (nodevals : Fin (degree + 1) → ℝ) :
    Fin (degree + 1) → ℝ :=
  let nodes := EvaluationNodes degree rel_orient
  let V : Matrix (Fin (degree + 1)) (Fin (degree + 1)) ℝ :=
    fun k j =>
      EvalReferenceShapeFunctions degree rel_orient (nodes.getD j 0) k
  qrSolve V.transpose nodevals

end FeHierarchicSegment

namespace FeHierarchicTria

/-- Barycentric coordinate `l1 = 1 - x - y`. -/
def l1 (x y : ℚ) : ℚ := 1 - x - y

/-- Barycentric coordinate `l2 = x`. -/
def l2 (x y : ℚ) : ℚ := x

/-- Barycentric coordinate `l3 = y`. -/
def l3 (x y : ℚ) : ℚ := y

/-- `l121n`: `l1+l2 == 0 ? 0 : l1/(l1+l2)`. -/
def l121n (x y : ℚ) : ℚ :=
  if l1 x y + l2 x y = 0 then 0 else l1 x y / (l1 x y + l2 x y)

/-- `l122n`: `l1+l2 == 0 ? 0 : l2/(l1+l2)`. -/
def l122n (x y : ℚ) : ℚ :=
  if l1 x y + l2 x y = 0 then 0 else l2 x y / (l1 x y + l2 x y)

/-- `l232n`: `l2+l3 == 0 ? 0 : l2/(l2+l3)`. -/
def l232n (x y : ℚ) : ℚ :=
  if l2 x y + l3 x y = 0 then 0 else l2 x y / (l2 x y + l3 x y)

/-- `l233n`: `l2+l3 == 0 ? 0 : l3/(l2+l3)`. -/
def l233n (x y : ℚ) : ℚ :=
  if l2 x y + l3 x y = 0 then 0 else l3 x y / (l2 x y + l3 x y)

/-- `l313n`: `l3+l1 == 0 ? 0 : l3/(l3+l1)`. -/
def l313n (x y : ℚ) : ℚ :=
  if l3 x y + l1 x y = 0 then 0 else l3 x y / (l3 x y + l1 x y)

/-- `l311n`: `l3+l1 == 0 ? 0 : l1/(l3+l1)`. -/
def l311n (x y : ℚ) : ℚ :=
  if l3 x y + l1 x y = 0 then 0 else l1 x y / (l3 x y + l1 x y)

/-- Edge-0 basis mode `i` under positive orientation (the loop body
writing `result.row(3 + i)`): `(l1+l2)^(i+2) · ∫Leg_{i+2}(l122n)`. -/
def edge0Pos (i : ℕ) (x y : ℚ) : ℚ :=
  (l1 x y + l2 x y) ^ (i + 2) * LegendrePoly.integral (i + 2) (l122n x y)

/-- Edge-0 basis mode `i` under negative orientation (the loop body
writing `result.row(degree_ + 1 - i)`):
`(l1+l2)^(i+2) · ∫Leg_{i+2}(l121n)`. -/
def edge0Neg (i : ℕ) (x y : ℚ) : ℚ :=
  (l1 x y + l2 x y) ^ (i + 2) * LegendrePoly.integral (i + 2) (l121n x y)

/-- Edge-1 basis mode `i` under positive orientation (the loop body
writing `result.row(degree_ + 2 + i)`):
`(l2+l3)^(i+2) · ∫Leg_{i+2}(l233n)`. -/
def edge1Pos (i : ℕ) (x y : ℚ) : ℚ :=
  (l2 x y + l3 x y) ^ (i + 2) * LegendrePoly.integral (i + 2) (l233n x y)

/-- Edge-1 basis mode `i` under negative orientation (the loop body
writing `result.row(2 * degree_ - i)`):
`(l2+l3)^(i+2) · ∫Leg_{i+2}(l232n)`. -/
def edge1Neg (i : ℕ) (x y : ℚ) : ℚ :=
  (l2 x y + l3 x y) ^ (i + 2) * LegendrePoly.integral (i + 2) (l232n x y)

/-- Edge-2 basis mode `i` under positive orientation (the loop body
writing `result.row(2 * degree_ + 1 + i)`):
`(l3+l1)^(i+2) · ∫Leg_{i+2}(l311n)`. -/
def edge2Pos (i : ℕ) (x y : ℚ) : ℚ :=
  (l3 x y + l1 x y) ^ (i + 2) * LegendrePoly.integral (i + 2) (l311n x y)

/-- Edge-2 basis mode `i` under negative orientation (the loop body
writing `result.row(3 * degree_ - 1 - i)`):
`(l3+l1)^(i+2) · ∫Leg_{i+2}(l313n)`. -/
def edge2Neg (i : ℕ) (x y : ℚ) : ℚ :=
  (l3 x y + l1 x y) ^ (i + 2) * LegendrePoly.integral (i + 2) (l313n x y)

/-- Interior bubble `(i, j)` of the triangle (the body of the nested
interior loops): the edge-1 mode `i` (selected by `rel_orient_[1]`)
multiplied by the integrated Jacobi polynomial of degree `j+1` with
parameter `α = 2i+4` evaluated at `l1`. -/
def bubble (o1 : Orientation) (i j : ℕ) (x y : ℚ) : ℚ :=
  (match o1 with
    | .positive => edge1Pos i x y
    | .negative => edge1Neg i x y)
    * JacobiPoly.integral (j + 1) (2 * (i : ℚ) + 4) (l1 x y)

/-- Unranks the flat interior-bubble position `t` into the loop pair
`(i, j)` of the interior enumeration (`i = 0..p-3`, `j = 0..p-i-3`,
block `i` of length `p-2-i`).  `fuel` bounds the recursion; it is called
with `fuel = p`, enough to cover all valid positions. -/
def bubbleIdxAux (p : ℕ) : ℕ → ℕ → ℕ → ℕ × ℕ
  | 0, i, t => (i, t)
  | fuel + 1, i, t =>
    if t < p - 2 - i then (i, t) else bubbleIdxAux p fuel (i + 1) (t - (p - 2 - i))

/-- Unranks a flat interior row offset into the `(i, j)` pair of the
source's interior enumeration (indices filled sequentially from `3p`). -/
def bubbleIdx (p t : ℕ) : ℕ × ℕ := bubbleIdxAux p p 0 t

/-- Row `r` of `FeHierarchicTria::EvalReferenceShapeFunctions` at one
evaluation point `(x, y)`.  The source writes each row exactly once:
rows 0–2 hold the barycentric coordinates; rows `3..p+1` are edge-0
modes (`row 3+i` for positive orientation, `row p+1-i` for negative);
rows `p+2..2p` are edge-1 modes (`p+2+i` positive, `2p-i` negative);
rows `2p+1..3p-1` are edge-2 modes (`2p+1+i` positive, `3p-1-i`
negative); rows from `3p` are the interior bubbles in the source's
sequential enumeration.  This function inverts those index maps. -/
def EvalReferenceShapeFunctions (p : ℕ) (o0 o1 o2 : Orientation)
    (x y : ℚ) (r : ℕ) : ℚ :=
  if r = 0 then l1 x y
  else if r = 1 then l2 x y
  else if r = 2 then l3 x y
  else if r ≤ p + 1 then
    match o0 with
    | .positive => edge0Pos (r - 3) x y
    | .negative => edge0Neg (p + 1 - r) x y
  else if r ≤ 2 * p then
    match o1 with
    | .positive => edge1Pos (r - (p + 2)) x y
    | .negative => edge1Neg (2 * p - r) x y
  else if r ≤ 3 * p - 1 then
    match o2 with
    | .positive => edge2Pos (r - (2 * p + 1)) x y
    | .negative => edge2Neg (3 * p - 1 - r) x y
  else
    bubble o1 (bubbleIdx p (r - 3 * p)).1 (bubbleIdx p (r - 3 * p)).2 x y

/-- `FeHierarchicTria::NumRefShapeFunctions()`:
`(degree_ + 1) * (degree_ + 2) / 2`. -/
def NumRefShapeFunctions (degree : ℕ) : ℕ :=
  (degree + 1) * (degree + 2) / 2

/-- `FeHierarchicTria::NumRefShapeFunctions(codim)`: interior count for
codim 0 (`0` if `degree_ <= 2`, else `(degree_-2)(degree_-1)/2`),
`degree_ - 1` per edge for codim 1, `1` per vertex for codim 2; any
other codim hits `LF_ASSERT_MSG(false, ...)`, modelled as `none`. -/
def NumRefShapeFunctionsCodim (degree : ℕ) (codim : ℕ) : Option ℕ :=
  match codim with
  | 0 => some (if degree ≤ 2 then 0 else (degree - 2) * (degree - 1) / 2)
  | 1 => some (degree - 1)
  | 2 => some 1
  | _ => none

end FeHierarchicTria

namespace FeHierarchicQuad

/-- `FeHierarchicQuad::NumRefShapeFunctions()`:
`(degree_ + 1) * (degree_ + 1)`. -/
def NumRefShapeFunctions (degree : ℕ) : ℕ :=
  (degree + 1) * (degree + 1)

/-- Row `r` of `FeHierarchicQuad::EvalReferenceShapeFunctions` at one
evaluation point `(x, y)`.  `sf1d_x`/`sf1d_y` are the 1D segment basis
rows at `x`/`y`, `sf1df_x`/`sf1df_y` those at `1-x`/`1-y`.  The source
writes each row exactly once: rows 0–3 the vertex products; rows
`4..p+2` edge-0 modes (`4+i` positive, `2+p-i` negative); rows
`p+3..2p+1` edge-1 modes (`3+p+i` positive, `1+2p-i` negative); rows
`2p+2..3p` edge-2 modes (`2+2p+i` positive, `3p-i` negative); rows
`3p+1..4p-1` edge-3 modes (`1+3p+i` positive, `4p-1-i` negative); rows
from `4p` the interior tensor modes at `4p + (p-1)i + j`.  This
function inverts those index maps. -/
def EvalReferenceShapeFunctions (p : ℕ) (o0 o1 o2 o3 : Orientation)
    (x y : ℚ) (r : ℕ) : ℚ :=
  let sx := FeHierarchicSegment.EvalReferenceShapeFunctions p [] x
  let sy := FeHierarchicSegment.EvalReferenceShapeFunctions p [] y
  let sfx := FeHierarchicSegment.EvalReferenceShapeFunctions p [] (1 - x)
  let sfy := FeHierarchicSegment.EvalReferenceShapeFunctions p [] (1 - y)
  if r = 0 then sx 0 * sy 0
  else if r = 1 then sx 1 * sy 0
  else if r = 2 then sx 1 * sy 1
  else if r = 3 then sx 0 * sy 1
  else if r ≤ p + 2 then
    match o0 with
    | .positive => sx (2 + (r - 4)) * sy 0
    | .negative => sfx (2 + (2 + p - r)) * sy 0
  else if r ≤ 2 * p + 1 then
    match o1 with
    | .positive => sx 1 * sy (2 + (r - (p + 3)))
    | .negative => sx 1 * sfy (2 + (1 + 2 * p - r))
  else if r ≤ 3 * p then
    match o2 with
    | .positive => sfx (2 + (r - (2 * p + 2))) * sy 1
    | .negative => sx (2 + (3 * p - r)) * sy 1
  else if r ≤ 4 * p - 1 then
    match o3 with
    | .positive => sx 0 * sfy (2 + (r - (3 * p + 1)))
    | .negative => sx 0 * sy (2 + (4 * p - 1 - r))
  else
    sx ((r - 4 * p) % (p - 1) + 2) * sy ((r - 4 * p) / (p - 1) + 2)

end FeHierarchicQuad

/-- Division that records a division fault: `none` when the denominator
is zero (the `double` code would produce Inf/NaN there), otherwise the
exact quotient.  Used to re-run the triangle evaluation with every
coordinate-dependent division checked. -/
def divChk (a b : ℚ) : Option ℚ :=
  if b = 0 then none else some (a / b)

namespace FeHierarchicTria

/-- Checked form of the guarded normalized-ratio computation
`den == 0 ? 0 : num / den` of `EvalReferenceShapeFunctions`: the ternary
guard is kept, and the division of the else-branch is `divChk`. -/
def guardedFracC (num den : ℚ) : Option ℚ :=
  if den = 0 then some 0 else divChk num den

/-- Checked form of the guarded ratio-derivative computation in
`GradientsReferenceShapeFunctions`:
`den == 0 ? 0 : (numD*den - num*denD)/(den*den)`. -/
def guardedFracDC (num den numD denD : ℚ) : Option ℚ :=
  if den = 0 then some 0 else divChk (numD * den - num * denD) (den * den)

/-- `l1_dx = -1` (constant gradient component). -/
def l1_dx : ℚ := -1

/-- `l1_dy = -1`. -/
def l1_dy : ℚ := -1

/-- `l2_dx = 1`. -/
def l2_dx : ℚ := 1

/-- `l2_dy = 0`. -/
def l2_dy : ℚ := 0

/-- `l3_dx = 0`. -/
def l3_dx : ℚ := 0

/-- `l3_dy = 1`. -/
def l3_dy : ℚ := 1

/-- Checked `l121n`. -/
def l121nC (x y : ℚ) : Option ℚ := guardedFracC (l1 x y) (l1 x y + l2 x y)

/-- Checked `l122n`. -/
def l122nC (x y : ℚ) : Option ℚ := guardedFracC (l2 x y) (l1 x y + l2 x y)

/-- Checked `l232n`. -/
def l232nC (x y : ℚ) : Option ℚ := guardedFracC (l2 x y) (l2 x y + l3 x y)

/-- Checked `l233n`. -/
def l233nC (x y : ℚ) : Option ℚ := guardedFracC (l3 x y) (l2 x y + l3 x y)

/-- Checked `l313n`. -/
def l313nC (x y : ℚ) : Option ℚ := guardedFracC (l3 x y) (l3 x y + l1 x y)

/-- Checked `l311n`. -/
def l311nC (x y : ℚ) : Option ℚ := guardedFracC (l1 x y) (l3 x y + l1 x y)

/-- Checked edge-0 positive-orientation eval mode (row `3+i`). -/
def edge0PosC (i : ℕ) (x y : ℚ) : Option ℚ :=
  (l122nC x y).map
    (fun z => (l1 x y + l2 x y) ^ (i + 2) * LegendrePoly.integral (i + 2) z)

/-- Checked edge-0 negative-orientation eval mode (row `degree_+1-i`). -/
def edge0NegC (i : ℕ) (x y : ℚ) : Option ℚ :=
  (l121nC x y).map
    (fun z => (l1 x y + l2 x y) ^ (i + 2) * LegendrePoly.integral (i + 2) z)

/-- Checked edge-1 positive-orientation eval mode (row `degree_+2+i`). -/
def edge1PosC (i : ℕ) (x y : ℚ) : Option ℚ :=
  (l233nC x y).map
    (fun z => (l2 x y + l3 x y) ^ (i + 2) * LegendrePoly.integral (i + 2) z)

/-- Checked edge-1 negative-orientation eval mode (row `2*degree_-i`). -/
def edge1NegC (i : ℕ) (x y : ℚ) : Option ℚ :=
  (l232nC x y).map
    (fun z => (l2 x y + l3 x y) ^ (i + 2) * LegendrePoly.integral (i + 2) z)

/-- Checked edge-2 positive-orientation eval mode (row `2*degree_+1+i`). -/
def edge2PosC (i : ℕ) (x y : ℚ) : Option ℚ :=
  (l311nC x y).map
    (fun z => (l3 x y + l1 x y) ^ (i + 2) * LegendrePoly.integral (i + 2) z)

/-- Checked edge-2 negative-orientation eval mode (row `3*degree_-1-i`). -/
def edge2NegC (i : ℕ) (x y : ℚ) : Option ℚ :=
  (l313nC x y).map
    (fun z => (l3 x y + l1 x y) ^ (i + 2) * LegendrePoly.integral (i + 2) z)

/-- Checked interior-bubble eval `(i, j)` (the nested-loop body): the
already-computed edge-1 row (per `rel_orient_[1]`) times the integrated
Jacobi polynomial `∫Jac_{j+1}^{2i+4}(l1)` (whose internal recurrence
divides only by the positive coefficient products `ajp1`,
`(2n+α-1)(2n+α)`, ... — never by a coordinate). -/
def bubbleC (o1 : Orientation) (i j : ℕ) (x y : ℚ) : Option ℚ :=
  (match o1 with
    | .positive => edge1PosC i x y
    | .negative => edge1NegC i x y).map
    (fun e => e * JacobiPoly.integral (j + 1) (2 * (i : ℚ) + 4) (l1 x y))

/-- Checked gradient (dx, dy) of the edge-0 positive mode `j`
(the body writing `result(3+j, ·)` in
`GradientsReferenceShapeFunctions`): with `l1p2 = l1+l2`,
`l1p2_dx = l1_dx+l2_dx`, ratio `r = l122n` and its checked derivatives,
the component is
`l1p2_dx·(j+2)·l1p2^(j+1)·∫Leg_{j+2}(r) + l1p2^(j+2)·r_dx·Leg_{j+1}(r)`. -/
def edge0PosGradC (j : ℕ) (x y : ℚ) : Option (ℚ × ℚ) :=
  (l122nC x y).bind fun r =>
    (guardedFracDC (l2 x y) (l1 x y + l2 x y) l2_dx (l1_dx + l2_dx)).bind
      fun rdx =>
      (guardedFracDC (l2 x y) (l1 x y + l2 x y) l2_dy (l1_dy + l2_dy)).map
        fun rdy =>
        ((l1_dx + l2_dx) * (j + 2) * (l1 x y + l2 x y) ^ (j + 1)
            * LegendrePoly.integral (j + 2) r
          + (l1 x y + l2 x y) ^ (j + 2) * rdx * LegendrePoly.eval (j + 1) r,
        (l1_dy + l2_dy) * (j + 2) * (l1 x y + l2 x y) ^ (j + 1)
            * LegendrePoly.integral (j + 2) r
          + (l1 x y + l2 x y) ^ (j + 2) * rdy * LegendrePoly.eval (j + 1) r)

/-- Checked gradient of the edge-0 negative mode `j`
(the body writing `result(degree_+1-j, ·)`), using ratio `l121n`. -/
def edge0NegGradC (j : ℕ) (x y : ℚ) : Option (ℚ × ℚ) :=
  (l121nC x y).bind fun r =>
    (guardedFracDC (l1 x y) (l1 x y + l2 x y) l1_dx (l1_dx + l2_dx)).bind
      fun rdx =>
      (guardedFracDC (l1 x y) (l1 x y + l2 x y) l1_dy (l1_dy + l2_dy)).map
        fun rdy =>
        ((l1_dx + l2_dx) * (j + 2) * (l1 x y + l2 x y) ^ (j + 1)
            * LegendrePoly.integral (j + 2) r
          + (l1 x y + l2 x y) ^ (j + 2) * rdx * LegendrePoly.eval (j + 1) r,
        (l1_dy + l2_dy) * (j + 2) * (l1 x y + l2 x y) ^ (j + 1)
            * LegendrePoly.integral (j + 2) r
          + (l1 x y + l2 x y) ^ (j + 2) * rdy * LegendrePoly.eval (j + 1) r)

/-- Checked gradient of the edge-1 positive mode `j`
(the body writing `result(2+degree_+j, ·)`), using ratio `l233n` and
`l2p3 = l2+l3`. -/
def edge1PosGradC (j : ℕ) (x y : ℚ) : Option (ℚ × ℚ) :=
  (l233nC x y).bind fun r =>
    (guardedFracDC (l3 x y) (l2 x y + l3 x y) l3_dx (l2_dx + l3_dx)).bind
      fun rdx =>
      (guardedFracDC (l3 x y) (l2 x y + l3 x y) l3_dy (l2_dy + l3_dy)).map
        fun rdy =>
        ((l2_dx + l3_dx) * (j + 2) * (l2 x y + l3 x y) ^ (j + 1)
            * LegendrePoly.integral (j + 2) r
          + (l2 x y + l3 x y) ^ (j + 2) * rdx * LegendrePoly.eval (j + 1) r,
        (l2_dy + l3_dy) * (j + 2) * (l2 x y + l3 x y) ^ (j + 1)
            * LegendrePoly.integral (j + 2) r
          + (l2 x y + l3 x y) ^ (j + 2) * rdy * LegendrePoly.eval (j + 1) r)

/-- Checked gradient of the edge-1 negative mode `j`
(the body writing `result(2*degree_-j, ·)`), using ratio `l232n`. -/
def edge1NegGradC (j : ℕ) (x y : ℚ) : Option (ℚ × ℚ) :=
  (l232nC x y).bind fun r =>
    (guardedFracDC (l2 x y) (l2 x y + l3 x y) l2_dx (l2_dx + l3_dx)).bind
      fun rdx =>
      (guardedFracDC (l2 x y) (l2 x y + l3 x y) l2_dy (l2_dy + l3_dy)).map
        fun rdy =>
        ((l2_dx + l3_dx) * (j + 2) * (l2 x y + l3 x y) ^ (j + 1)
            * LegendrePoly.integral (j + 2) r
          + (l2 x y + l3 x y) ^ (j + 2) * rdx * LegendrePoly.eval (j + 1) r,
        (l2_dy + l3_dy) * (j + 2) * (l2 x y + l3 x y) ^ (j + 1)
            * LegendrePoly.integral (j + 2) r
          + (l2 x y + l3 x y) ^ (j + 2) * rdy * LegendrePoly.eval (j + 1) r)

/-- Checked gradient of the edge-2 positive mode `j`
(the body writing `result(1+2*degree_+j, ·)`), using ratio `l311n` and
`l3p1 = l3+l1`. -/
def edge2PosGradC (j : ℕ) (x y : ℚ) : Option (ℚ × ℚ) :=
  (l311nC x y).bind fun r =>
    (guardedFracDC (l1 x y) (l3 x y + l1 x y) l1_dx (l3_dx + l1_dx)).bind
      fun rdx =>
      (guardedFracDC (l1 x y) (l3 x y + l1 x y) l1_dy (l3_dy + l1_dy)).map
        fun rdy =>
        ((l3_dx + l1_dx) * (j + 2) * (l3 x y + l1 x y) ^ (j + 1)
            * LegendrePoly.integral (j + 2) r
          + (l3 x y + l1 x y) ^ (j + 2) * rdx * LegendrePoly.eval (j + 1) r,
        (l3_dy + l1_dy) * (j + 2) * (l3 x y + l1 x y) ^ (j + 1)
            * LegendrePoly.integral (j + 2) r
          + (l3 x y + l1 x y) ^ (j + 2) * rdy * LegendrePoly.eval (j + 1) r)

/-- Checked gradient of the edge-2 negative mode `j`
(the body writing `result(3*degree_-1-j, ·)`), using ratio `l313n`. -/
def edge2NegGradC (j : ℕ) (x y : ℚ) : Option (ℚ × ℚ) :=
  (l313nC x y).bind fun r =>
    (guardedFracDC (l3 x y) (l3 x y + l1 x y) l3_dx (l3_dx + l1_dx)).bind
      fun rdx =>
      (guardedFracDC (l3 x y) (l3 x y + l1 x y) l3_dy (l3_dy + l1_dy)).map
        fun rdy =>
        ((l3_dx + l1_dx) * (j + 2) * (l3 x y + l1 x y) ^ (j + 1)
            * LegendrePoly.integral (j + 2) r
          + (l3 x y + l1 x y) ^ (j + 2) * rdx * LegendrePoly.eval (j + 1) r,
        (l3_dy + l1_dy) * (j + 2) * (l3 x y + l1 x y) ^ (j + 1)
            * LegendrePoly.integral (j + 2) r
          + (l3 x y + l1 x y) ^ (j + 2) * rdy * LegendrePoly.eval (j + 1) r)

/-- Checked gradient of the interior bubble `(i, j)` (the body writing
`result(idx, ·)` in the interior loops of
`GradientsReferenceShapeFunctions`): with `edge_eval` the edge-1 value
factor, `(edge_dx, edge_dy)` the edge-1 gradient, `jackinte` the
integrated Jacobi polynomial and `jackeval` the Jacobi polynomial at
`l1`, the component is `jackinte·edge_dx + edge_eval·jackeval·l1_dx`. -/
def bubbleGradC (o1 : Orientation) (i j : ℕ) (x y : ℚ) : Option (ℚ × ℚ) :=
  ((match o1 with
    | .positive => l233nC x y
    | .negative => l232nC x y).bind fun r =>
    (match o1 with
      | .positive => edge1PosGradC i x y
      | .negative => edge1NegGradC i x y).map fun (ed : ℚ × ℚ) =>
      let ee := (l2 x y + l3 x y) ^ (i + 2) * LegendrePoly.integral (i + 2) r
      let jackinte := JacobiPoly.integral (j + 1) (2 * (i : ℚ) + 4) (l1 x y)
      let jackeval := JacobiPoly.eval j (2 * (i : ℚ) + 4) (l1 x y)
      (jackinte * ed.1 + ee * jackeval * l1_dx,
       jackinte * ed.2 + ee * jackeval * l1_dy))

end FeHierarchicTria

namespace LegendrePoly

variable {K : Type} [Field K]

/-- The three-term Legendre recurrence in the remapped variable
`t = 2x-1`, written as a two-case recursion; `legPair`/`legTriple` (the
loop states of the source) compute exactly this sequence. -/
def legT (t : K) : ℕ → K
  | 0 => 1
  | 1 => t
  | n + 2 =>
    ((2 * ((n : K) + 1) + 1) * t * legT t (n + 1) - ((n : K) + 1) * legT t n)
      / ((n : K) + 2)

/-- The Legendre polynomial in the remapped variable as an element of
`ℚ[X]`: the same three-term recurrence on polynomials. -/
noncomputable def legPoly : ℕ → Polynomial ℚ
  | 0 => 1
  | 1 => Polynomial.X
  | n + 2 =>
    Polynomial.C (((n : ℚ) + 2)⁻¹)
      * (Polynomial.C (2 * (n : ℚ) + 3) * (Polynomial.X * legPoly (n + 1))
        - Polynomial.C ((n : ℚ) + 1) * legPoly n)

/-- The polynomial (in the unit-interval variable `x`) whose evaluation
is `LegendrePoly::eval(n, x)`: `legPoly n` composed with `2X - 1`. -/
noncomputable def evalPoly (n : ℕ) : Polynomial ℚ :=
  (legPoly n).comp (Polynomial.C 2 * Polynomial.X - Polynomial.C 1)

/-- The polynomial (in the unit-interval variable `x`) whose evaluation
is `LegendrePoly::integral(n, x)` for `n ≥ 2`:
`(legPoly n - legPoly (n-2))/(4n-2)` composed with `2X - 1`. -/
noncomputable def integralPoly (n : ℕ) : Polynomial ℚ :=
  Polynomial.C ((4 * (n : ℚ) - 2)⁻¹)
    * ((legPoly n - legPoly (n - 2)).comp
        (Polynomial.C 2 * Polynomial.X - Polynomial.C 1))

end LegendrePoly

/-! ## Theorems -/

/-- C2 (code divergence): on the Triangle, the sub-sub-entity lookup
table row for edge 2 is `{2, 3}` in the source (not `{2, 0}` as the
vertex pairs (0,1),(1,2),(2,0) of the spec require), so
`SubSubEntity2SubEntity(1, 2, 1, 1)` returns 3 — an index that is not
below `NumNodes() = 3`. -/
theorem tria_sub_sub_entity_edge2_returns_3 :
    RefEl.SubSubEntity2SubEntity .kTria 1 2 1 1 = some 3 ∧
    RefEl.NumNodes .kTria = 3 ∧ ¬((3 : ℤ) < 3) := by
  refine ⟨by decide, by decide, by decide⟩

/-- C5: for every degree `p ≥ 1` the triangle basis has
`(p+1)(p+2)/2` shape functions, `1` per vertex, `p-1` per edge and
`max(0, (p-2)(p-1)/2)` interior bubbles, and the per-entity counts sum
to the total: `3·1 + 3·(p-1) + max(0,(p-2)(p-1)/2) = (p+1)(p+2)/2`. -/
theorem tria_shape_function_counts (p : ℕ) (hp : 1 ≤ p) :
    FeHierarchicTria.NumRefShapeFunctions p = (p + 1) * (p + 2) / 2 ∧
    FeHierarchicTria.NumRefShapeFunctionsCodim p 2 = some 1 ∧
    FeHierarchicTria.NumRefShapeFunctionsCodim p 1 = some (p - 1) ∧
    FeHierarchicTria.NumRefShapeFunctionsCodim p 0 =
      some (max 0 ((p - 2) * (p - 1) / 2)) ∧
    3 * 1 + 3 * (p - 1) + max 0 ((p - 2) * (p - 1) / 2) =
      (p + 1) * (p + 2) / 2 := by
  refine ⟨rfl, rfl, rfl, ?_, ?_⟩
  · simp only [FeHierarchicTria.NumRefShapeFunctionsCodim, Nat.zero_max]
    rcases le_or_lt p 2 with h | h
    · rw [if_pos h, Nat.sub_eq_zero_of_le h, Nat.zero_mul, Nat.zero_div]
    · rw [if_neg (by omega)]
  · simp only [Nat.zero_max]
    match p, hp with
    | 1, _ => rfl
    | 2, _ => rfl
    | k + 3, _ =>
      have h2 : 2 ∣ (k + 1) * (k + 2) := (Nat.even_mul_succ_self (k + 1)).two_dvd
      have h3 : (k + 3 + 1) * (k + 3 + 2) =
          (k + 1) * (k + 2) + 2 * (3 * 1 + 3 * (k + 2)) := by ring
      have h4 : k + 3 - 2 = k + 1 := rfl
      have h5 : k + 3 - 1 = k + 2 := rfl
      rw [h4, h5]
      omega

/-- Witness for C5 at `p = 3`. -/
theorem tria_shape_function_counts_witness :
    1 ≤ 3 ∧ FeHierarchicTria.NumRefShapeFunctions 3 = (3 + 1) * (3 + 2) / 2 := by
  exact ⟨by decide, (tria_shape_function_counts 3 (by decide)).1⟩

/-- C7: `SubType(codim, index)` with a valid index returns the kind
itself at codim 0, Point at codim = Dimension, Segment when
`Dimension - codim = 1`, and any call with a negative codim or a codim
beyond the dimension fails (modelled as `none`). -/
theorem subtype_policy (t : RefElType) (c i : ℤ) :
    (0 ≤ c → c ≤ RefEl.Dimension t → 0 ≤ i →
      ∀ n, RefEl.NumSubEntities t c = some n → i < n →
        (c = 0 → RefEl.SubType t c i = some t) ∧
        (c = RefEl.Dimension t → RefEl.SubType t c i = some .kPoint) ∧
        (RefEl.Dimension t - c = 1 → RefEl.SubType t c i = some .kSegment)) ∧
    ((c < 0 ∨ c > RefEl.Dimension t) → RefEl.SubType t c i = none) := by
  constructor
  · intro hc0 hcd hi n hn hin
    have e0 : ¬ c < 0 := by omega
    have e1 : ¬ c > RefEl.Dimension t := by omega
    have e2 : ¬ i < 0 := by omega
    simp only [RefEl.SubType, if_neg e0, if_neg e1, if_neg e2, hn,
      if_neg (show ¬ i ≥ n by omega)]
    refine ⟨fun hcc => ?_, fun hcc => ?_, fun hcc => ?_⟩
    · rw [if_pos hcc]
    · by_cases h0 : c = 0
      · rw [if_pos h0]
        subst h0
        cases t <;> simp [RefEl.Dimension] at hcc ⊢
      · rw [if_neg h0, if_pos hcc]
    · by_cases h0 : c = 0
      · rw [if_pos h0]
        subst h0
        cases t <;> simp [RefEl.Dimension] at hcc ⊢
      · by_cases hd : c = RefEl.Dimension t
        · exfalso; omega
        · rw [if_neg h0, if_neg hd, if_pos hcc]
  · intro h
    rcases h with h | h
    · simp only [RefEl.SubType, if_pos h]
    · by_cases h0 : c < 0
      · simp only [RefEl.SubType, if_pos h0]
      · simp only [RefEl.SubType, if_neg h0, if_pos h]

/-- Witness for C7: a valid query (`Tria`, codim 1, index 2 → Segment)
and an invalid codim (`Tria`, codim 3 → failure). -/
theorem subtype_policy_witness :
    RefEl.SubType .kTria 1 2 = some .kSegment ∧
    RefEl.SubType .kTria 3 0 = none := by
  exact ⟨((subtype_policy .kTria 1 2).1 (by decide) (by decide) (by decide)
    3 (by decide) (by decide)).2.2 (by decide),
    (subtype_policy .kTria 3 0).2 (Or.inr (by decide))⟩

/-- C8: the segment basis at `p = 3` has 4 shape functions, its
evaluation nodes are the endpoints 0 and 1 followed by the 2 Chebyshev
nodes, and on the point batch `[0, 1, 1/2]` row 0 (the function `1-x`)
is `[1, 0, 1/2]` and row 1 (the function `x`) is `[0, 1, 1/2]`. -/
theorem segment_p3_scenario :
    FeHierarchicSegment.NumRefShapeFunctions 3 [] = 4 ∧
    FeHierarchicSegment.EvaluationNodes 3 [] = [0, 1] ++ chebyshevNodes 2 ∧
    (chebyshevNodes 2).length = 2 ∧
    ([0, 1, 1/2] : List ℚ).map
      (fun x => FeHierarchicSegment.EvalReferenceShapeFunctions 3 [] x 0) =
      [1, 0, 1/2] ∧
    ([0, 1, 1/2] : List ℚ).map
      (fun x => FeHierarchicSegment.EvalReferenceShapeFunctions 3 [] x 1) =
      [0, 1, 1/2] := by
  refine ⟨rfl, ?_, ?_, ?_, ?_⟩
  · simp [FeHierarchicSegment.EvaluationNodes]
  · rw [chebyshevNodes, List.length_map, List.length_range]
  · norm_num [FeHierarchicSegment.EvalReferenceShapeFunctions]
  · norm_num [FeHierarchicSegment.EvalReferenceShapeFunctions]

/-- C9: the segment basis never reads its stored orientation vector:
for any two orientation vectors, `EvalReferenceShapeFunctions`,
`GradientsReferenceShapeFunctions`, `EvaluationNodes`,
`NodalValuesToDofs` (and the shape-function count) agree on every
input (two-run noninterference). -/
theorem segment_orientation_noninterference (p : ℕ) (hp : 1 ≤ p)
    (o1 o2 : List Orientation) :
    (∀ (x : ℚ) (r : ℕ),
      FeHierarchicSegment.EvalReferenceShapeFunctions p o1 x r =
        FeHierarchicSegment.EvalReferenceShapeFunctions p o2 x r) ∧
    (∀ (x : ℚ) (r : ℕ),
      FeHierarchicSegment.GradientsReferenceShapeFunctions p o1 x r =
        FeHierarchicSegment.GradientsReferenceShapeFunctions p o2 x r) ∧
    FeHierarchicSegment.EvaluationNodes p o1 =
      FeHierarchicSegment.EvaluationNodes p o2 ∧
    (∀ v, FeHierarchicSegment.NodalValuesToDofs p o1 v =
      FeHierarchicSegment.NodalValuesToDofs p o2 v) ∧
    FeHierarchicSegment.NumRefShapeFunctions p o1 =
      FeHierarchicSegment.NumRefShapeFunctions p o2 :=
  ⟨fun _ _ => rfl, fun _ _ => rfl, rfl, fun _ => rfl, rfl⟩

/-- Witness for C9 at `p = 1` with orientation vectors `[]` and
`[negative]`. -/
theorem segment_orientation_noninterference_witness :
    1 ≤ 1 ∧
    FeHierarchicSegment.EvalReferenceShapeFunctions 1 [] (1/2 : ℚ) 0 =
      FeHierarchicSegment.EvalReferenceShapeFunctions 1 [.negative]
        (1/2 : ℚ) 0 :=
  ⟨by decide,
    (segment_orientation_noninterference 1 (by decide) [] [.negative]).1
      (1/2) 0⟩

/-- C10: segment evaluation writes rows 0 and 1 unconditionally plus the
interior rows; for every representable degree `p ≥ 1` every written row
index is below the allocated `NumRefShapeFunctions() = p + 1`, while for
`p = 0` row 1 of a 1-row matrix is written, out of bounds. -/
theorem segment_written_rows_in_bounds_iff (p : ℕ) :
    (1 ≤ p → p + 1 < 2 ^ 32 →
      ∀ r ∈ FeHierarchicSegment.writtenRows p,
        r < FeHierarchicSegment.NumRefShapeFunctions p []) ∧
    (1 ∈ FeHierarchicSegment.writtenRows 0 ∧
      FeHierarchicSegment.NumRefShapeFunctions 0 [] = 1 ∧
      ¬ ∀ r ∈ FeHierarchicSegment.writtenRows 0,
          r < FeHierarchicSegment.NumRefShapeFunctions 0 []) := by
  refine ⟨?_, ?_, rfl, ?_⟩
  · intro hp hlt r hr
    have hmod : (p + (2 ^ 32 - 1)) % 2 ^ 32 = p - 1 := by omega
    simp only [FeHierarchicSegment.writtenRows, hmod, List.mem_append,
      List.mem_cons, List.not_mem_nil, or_false, List.mem_map,
      List.mem_range] at hr
    show r < p + 1
    rcases hr with (rfl | rfl) | ⟨i, hi, rfl⟩ <;> omega
  · simp [FeHierarchicSegment.writtenRows]
  · intro h
    have := h 1 (by simp [FeHierarchicSegment.writtenRows])
    simp [FeHierarchicSegment.NumRefShapeFunctions] at this

/-- Witness for C10 at `p = 3`, row 3. -/
theorem segment_written_rows_in_bounds_iff_witness :
    (1 ≤ 3 ∧ 3 + 1 < 2 ^ 32) ∧
    3 < FeHierarchicSegment.NumRefShapeFunctions 3 [] :=
  ⟨⟨by norm_num, by norm_num⟩,
    (segment_written_rows_in_bounds_iff 3).1 (by norm_num) (by norm_num) 3
      (by simp [FeHierarchicSegment.writtenRows])⟩

namespace FeHierarchicTria

/-- The triangle row `p+1-i` under negative edge-0 orientation holds the
edge-0 mode `i`. -/
theorem eval_row_edge0_neg (p i : ℕ) (o1 o2 : Orientation) (x y : ℚ)
    (hi : i + 2 ≤ p) :
    EvalReferenceShapeFunctions p .negative o1 o2 x y (p + 1 - i) =
      edge0Neg i x y := by
  unfold EvalReferenceShapeFunctions
  rw [if_neg (by omega), if_neg (by omega), if_neg (by omega),
    if_pos (by omega : p + 1 - i ≤ p + 1)]
  show edge0Neg (p + 1 - (p + 1 - i)) x y = edge0Neg i x y
  rw [show p + 1 - (p + 1 - i) = i by omega]

/-- The triangle row `3+i` under positive edge-0 orientation holds the
edge-0 mode `i`. -/
theorem eval_row_edge0_pos (p i : ℕ) (o1 o2 : Orientation) (x y : ℚ)
    (hi : i + 2 ≤ p) :
    EvalReferenceShapeFunctions p .positive o1 o2 x y (3 + i) =
      edge0Pos i x y := by
  unfold EvalReferenceShapeFunctions
  rw [if_neg (by omega), if_neg (by omega), if_neg (by omega),
    if_pos (by omega : 3 + i ≤ p + 1)]
  show edge0Pos (3 + i - 3) x y = edge0Pos i x y
  rw [show 3 + i - 3 = i by omega]

/-- The triangle row `2p-i` under negative edge-1 orientation holds the
edge-1 mode `i`. -/
theorem eval_row_edge1_neg (p i : ℕ) (o0 o2 : Orientation) (x y : ℚ)
    (hi : i + 2 ≤ p) :
    EvalReferenceShapeFunctions p o0 .negative o2 x y (2 * p - i) =
      edge1Neg i x y := by
  unfold EvalReferenceShapeFunctions
  rw [if_neg (by omega), if_neg (by omega), if_neg (by omega),
    if_neg (by omega : ¬ 2 * p - i ≤ p + 1),
    if_pos (by omega : 2 * p - i ≤ 2 * p)]
  show edge1Neg (2 * p - (2 * p - i)) x y = edge1Neg i x y
  rw [show 2 * p - (2 * p - i) = i by omega]

/-- The triangle row `p+2+i` under positive edge-1 orientation holds the
edge-1 mode `i`. -/
theorem eval_row_edge1_pos (p i : ℕ) (o0 o2 : Orientation) (x y : ℚ)
    (hi : i + 2 ≤ p) :
    EvalReferenceShapeFunctions p o0 .positive o2 x y (p + 2 + i) =
      edge1Pos i x y := by
  unfold EvalReferenceShapeFunctions
  rw [if_neg (by omega), if_neg (by omega), if_neg (by omega),
    if_neg (by omega : ¬ p + 2 + i ≤ p + 1),
    if_pos (by omega : p + 2 + i ≤ 2 * p)]
  show edge1Pos (p + 2 + i - (p + 2)) x y = edge1Pos i x y
  rw [show p + 2 + i - (p + 2) = i by omega]

/-- The triangle row `3p-1-i` under negative edge-2 orientation holds the
edge-2 mode `i`. -/
theorem eval_row_edge2_neg (p i : ℕ) (o0 o1 : Orientation) (x y : ℚ)
    (hi : i + 2 ≤ p) :
    EvalReferenceShapeFunctions p o0 o1 .negative x y (3 * p - 1 - i) =
      edge2Neg i x y := by
  unfold EvalReferenceShapeFunctions
  rw [if_neg (by omega), if_neg (by omega), if_neg (by omega),
    if_neg (by omega : ¬ 3 * p - 1 - i ≤ p + 1),
    if_neg (by omega : ¬ 3 * p - 1 - i ≤ 2 * p),
    if_pos (by omega : 3 * p - 1 - i ≤ 3 * p - 1)]
  show edge2Neg (3 * p - 1 - (3 * p - 1 - i)) x y = edge2Neg i x y
  rw [show 3 * p - 1 - (3 * p - 1 - i) = i by omega]

/-- The triangle row `2p+1+i` under positive edge-2 orientation holds the
edge-2 mode `i`. -/
theorem eval_row_edge2_pos (p i : ℕ) (o0 o1 : Orientation) (x y : ℚ)
    (hi : i + 2 ≤ p) :
    EvalReferenceShapeFunctions p o0 o1 .positive x y (2 * p + 1 + i) =
      edge2Pos i x y := by
  unfold EvalReferenceShapeFunctions
  rw [if_neg (by omega), if_neg (by omega), if_neg (by omega),
    if_neg (by omega : ¬ 2 * p + 1 + i ≤ p + 1),
    if_neg (by omega : ¬ 2 * p + 1 + i ≤ 2 * p),
    if_pos (by omega : 2 * p + 1 + i ≤ 3 * p - 1)]
  show edge2Pos (2 * p + 1 + i - (2 * p + 1)) x y = edge2Pos i x y
  rw [show 2 * p + 1 + i - (2 * p + 1) = i by omega]

/-- On edge 0 of the triangle (`y = 0`) the negative-orientation mode at
`x` equals the positive-orientation mode at the complement `1-x`. -/
theorem edge0_flip (i : ℕ) (x : ℚ) :
    edge0Neg i x 0 = edge0Pos i (1 - x) 0 := by
  simp only [edge0Neg, edge0Pos, l121n, l122n, l1, l2]
  rw [show (1 : ℚ) - x - 0 + x = 1 by ring,
    show (1 : ℚ) - (1 - x) - 0 + (1 - x) = 1 by ring]
  norm_num

/-- On edge 1 of the triangle (`x + y = 1`) the negative-orientation mode
at `(x, 1-x)` equals the positive-orientation mode at `(1-x, x)`. -/
theorem edge1_flip (i : ℕ) (x : ℚ) :
    edge1Neg i x (1 - x) = edge1Pos i (1 - x) x := by
  simp only [edge1Neg, edge1Pos, l232n, l233n, l2, l3]
  rw [show x + (1 - x) = (1 : ℚ) by ring,
    show (1 : ℚ) - x + x = 1 by ring]

/-- On edge 2 of the triangle (`x = 0`) the negative-orientation mode at
`(0, x)` equals the positive-orientation mode at `(0, 1-x)`. -/
theorem edge2_flip (i : ℕ) (x : ℚ) :
    edge2Neg i 0 x = edge2Pos i 0 (1 - x) := by
  simp only [edge2Neg, edge2Pos, l313n, l311n, l1, l3]
  rw [show x + ((1 : ℚ) - 0 - x) = 1 by ring,
    show (1 : ℚ) - x + (1 - 0 - (1 - x)) = 1 by ring]
  norm_num

end FeHierarchicTria

namespace FeHierarchicQuad

/-- The quad row `2+p-i` under negative edge-0 orientation holds the
product of the flipped 1D interior mode `i` in `x` with the 1D vertex-0
function in `y`. -/
theorem eval_row_qedge0_neg (p i : ℕ) (o1 o2 o3 : Orientation) (x y : ℚ)
    (hi : i + 2 ≤ p) :
    EvalReferenceShapeFunctions p .negative o1 o2 o3 x y (2 + p - i) =
      FeHierarchicSegment.EvalReferenceShapeFunctions p [] (1 - x) (2 + i) *
        FeHierarchicSegment.EvalReferenceShapeFunctions p [] y 0 := by
  unfold EvalReferenceShapeFunctions
  rw [if_neg (by omega), if_neg (by omega), if_neg (by omega),
    if_neg (by omega), if_pos (by omega : 2 + p - i ≤ p + 2)]
  rw [show 2 + (2 + p - (2 + p - i)) = 2 + i by omega]

/-- The quad row `4+i` under positive edge-0 orientation holds the
product of the 1D interior mode `i` in `x` with the 1D vertex-0 function
in `y`. -/
theorem eval_row_qedge0_pos (p i : ℕ) (o1 o2 o3 : Orientation) (x y : ℚ)
    (hi : i + 2 ≤ p) :
    EvalReferenceShapeFunctions p .positive o1 o2 o3 x y (4 + i) =
      FeHierarchicSegment.EvalReferenceShapeFunctions p [] x (2 + i) *
        FeHierarchicSegment.EvalReferenceShapeFunctions p [] y 0 := by
  unfold EvalReferenceShapeFunctions
  rw [if_neg (by omega), if_neg (by omega), if_neg (by omega),
    if_neg (by omega), if_pos (by omega : 4 + i ≤ p + 2)]
  rw [show 2 + (4 + i - 4) = 2 + i by omega]

/-- The quad row `1+2p-i` under negative edge-1 orientation. -/
theorem eval_row_qedge1_neg (p i : ℕ) (o0 o2 o3 : Orientation) (x y : ℚ)
    (hi : i + 2 ≤ p) :
    EvalReferenceShapeFunctions p o0 .negative o2 o3 x y (1 + 2 * p - i) =
      FeHierarchicSegment.EvalReferenceShapeFunctions p [] x 1 *
        FeHierarchicSegment.EvalReferenceShapeFunctions p [] (1 - y) (2 + i) := by
  unfold EvalReferenceShapeFunctions
  rw [if_neg (by omega), if_neg (by omega), if_neg (by omega),
    if_neg (by omega), if_neg (by omega : ¬ 1 + 2 * p - i ≤ p + 2),
    if_pos (by omega : 1 + 2 * p - i ≤ 2 * p + 1)]
  rw [show 2 + (1 + 2 * p - (1 + 2 * p - i)) = 2 + i by omega]

/-- The quad row `3+p+i` under positive edge-1 orientation. -/
theorem eval_row_qedge1_pos (p i : ℕ) (o0 o2 o3 : Orientation) (x y : ℚ)
    (hi : i + 2 ≤ p) :
    EvalReferenceShapeFunctions p o0 .positive o2 o3 x y (3 + p + i) =
      FeHierarchicSegment.EvalReferenceShapeFunctions p [] x 1 *
        FeHierarchicSegment.EvalReferenceShapeFunctions p [] y (2 + i) := by
  unfold EvalReferenceShapeFunctions
  rw [if_neg (by omega), if_neg (by omega), if_neg (by omega),
    if_neg (by omega), if_neg (by omega : ¬ 3 + p + i ≤ p + 2),
    if_pos (by omega : 3 + p + i ≤ 2 * p + 1)]
  rw [show 2 + (3 + p + i - (p + 3)) = 2 + i by omega]

/-- The quad row `3p-i` under negative edge-2 orientation. -/
theorem eval_row_qedge2_neg (p i : ℕ) (o0 o1 o3 : Orientation) (x y : ℚ)
    (hi : i + 2 ≤ p) :
    EvalReferenceShapeFunctions p o0 o1 .negative o3 x y (3 * p - i) =
      FeHierarchicSegment.EvalReferenceShapeFunctions p [] x (2 + i) *
        FeHierarchicSegment.EvalReferenceShapeFunctions p [] y 1 := by
  unfold EvalReferenceShapeFunctions
  rw [if_neg (by omega), if_neg (by omega), if_neg (by omega),
    if_neg (by omega), if_neg (by omega : ¬ 3 * p - i ≤ p + 2),
    if_neg (by omega : ¬ 3 * p - i ≤ 2 * p + 1),
    if_pos (by omega : 3 * p - i ≤ 3 * p)]
  rw [show 2 + (3 * p - (3 * p - i)) = 2 + i by omega]

/-- The quad row `2+2p+i` under positive edge-2 orientation. -/
theorem eval_row_qedge2_pos (p i : ℕ) (o0 o1 o3 : Orientation) (x y : ℚ)
    (hi : i + 2 ≤ p) :
    EvalReferenceShapeFunctions p o0 o1 .positive o3 x y (2 + 2 * p + i) =
      FeHierarchicSegment.EvalReferenceShapeFunctions p [] (1 - x) (2 + i) *
        FeHierarchicSegment.EvalReferenceShapeFunctions p [] y 1 := by
  unfold EvalReferenceShapeFunctions
  rw [if_neg (by omega), if_neg (by omega), if_neg (by omega),
    if_neg (by omega), if_neg (by omega : ¬ 2 + 2 * p + i ≤ p + 2),
    if_neg (by omega : ¬ 2 + 2 * p + i ≤ 2 * p + 1),
    if_pos (by omega : 2 + 2 * p + i ≤ 3 * p)]
  rw [show 2 + (2 + 2 * p + i - (2 * p + 2)) = 2 + i by omega]

/-- The quad row `4p-1-i` under negative edge-3 orientation. -/
theorem eval_row_qedge3_neg (p i : ℕ) (o0 o1 o2 : Orientation) (x y : ℚ)
    (hi : i + 2 ≤ p) :
    EvalReferenceShapeFunctions p o0 o1 o2 .negative x y (4 * p - 1 - i) =
      FeHierarchicSegment.EvalReferenceShapeFunctions p [] x 0 *
        FeHierarchicSegment.EvalReferenceShapeFunctions p [] y (2 + i) := by
  unfold EvalReferenceShapeFunctions
  rw [if_neg (by omega), if_neg (by omega), if_neg (by omega),
    if_neg (by omega), if_neg (by omega : ¬ 4 * p - 1 - i ≤ p + 2),
    if_neg (by omega : ¬ 4 * p - 1 - i ≤ 2 * p + 1),
    if_neg (by omega : ¬ 4 * p - 1 - i ≤ 3 * p),
    if_pos (by omega : 4 * p - 1 - i ≤ 4 * p - 1)]
  rw [show 2 + (4 * p - 1 - (4 * p - 1 - i)) = 2 + i by omega]

/-- The quad row `1+3p+i` under positive edge-3 orientation. -/
theorem eval_row_qedge3_pos (p i : ℕ) (o0 o1 o2 : Orientation) (x y : ℚ)
    (hi : i + 2 ≤ p) :
    EvalReferenceShapeFunctions p o0 o1 o2 .positive x y (1 + 3 * p + i) =
      FeHierarchicSegment.EvalReferenceShapeFunctions p [] x 0 *
        FeHierarchicSegment.EvalReferenceShapeFunctions p [] (1 - y) (2 + i) := by
  unfold EvalReferenceShapeFunctions
  rw [if_neg (by omega), if_neg (by omega), if_neg (by omega),
    if_neg (by omega), if_neg (by omega : ¬ 1 + 3 * p + i ≤ p + 2),
    if_neg (by omega : ¬ 1 + 3 * p + i ≤ 2 * p + 1),
    if_neg (by omega : ¬ 1 + 3 * p + i ≤ 3 * p),
    if_pos (by omega : 1 + 3 * p + i ≤ 4 * p - 1)]
  rw [show 2 + (1 + 3 * p + i - (3 * p + 1)) = 2 + i by omega]

end FeHierarchicQuad

/-- C1: flipping the relative orientation of an edge swaps which
endpoint's normalized coordinate is used, so on every edge of the
triangle and of the quadrilateral the edge basis mode `i` computed with
Negative orientation at an edge point equals the mode computed with
Positive orientation at the complement point.  For triangle edge 0:
Negative at `(x,0)`, row `p+1-i`, equals Positive at `(1-x,0)`, row
`3+i`; the other two triangle edges and the four quad edges are the
analogous statements for their row layouts and edge parametrizations. -/
theorem tria_quad_edge_orient_symmetry (p i : ℕ) (x : ℚ) (hp : 1 ≤ p)
    (hi : i + 2 ≤ p) (hx0 : 0 ≤ x) (hx1 : x ≤ 1) :
    (∀ a b : Orientation,
      FeHierarchicTria.EvalReferenceShapeFunctions p .negative a b x 0
          (p + 1 - i) =
        FeHierarchicTria.EvalReferenceShapeFunctions p .positive a b (1 - x) 0
          (3 + i)) ∧
    (∀ a b : Orientation,
      FeHierarchicTria.EvalReferenceShapeFunctions p a .negative b x (1 - x)
          (2 * p - i) =
        FeHierarchicTria.EvalReferenceShapeFunctions p a .positive b (1 - x) x
          (p + 2 + i)) ∧
    (∀ a b : Orientation,
      FeHierarchicTria.EvalReferenceShapeFunctions p a b .negative 0 x
          (3 * p - 1 - i) =
        FeHierarchicTria.EvalReferenceShapeFunctions p a b .positive 0 (1 - x)
          (2 * p + 1 + i)) ∧
    (∀ a b c : Orientation,
      FeHierarchicQuad.EvalReferenceShapeFunctions p .negative a b c x 0
          (2 + p - i) =
        FeHierarchicQuad.EvalReferenceShapeFunctions p .positive a b c (1 - x) 0
          (4 + i)) ∧
    (∀ a b c : Orientation,
      FeHierarchicQuad.EvalReferenceShapeFunctions p a .negative b c 1 x
          (1 + 2 * p - i) =
        FeHierarchicQuad.EvalReferenceShapeFunctions p a .positive b c 1 (1 - x)
          (3 + p + i)) ∧
    (∀ a b c : Orientation,
      FeHierarchicQuad.EvalReferenceShapeFunctions p a b .negative c x 1
          (3 * p - i) =
        FeHierarchicQuad.EvalReferenceShapeFunctions p a b .positive c (1 - x) 1
          (2 + 2 * p + i)) ∧
    (∀ a b c : Orientation,
      FeHierarchicQuad.EvalReferenceShapeFunctions p a b c .negative 0 x
          (4 * p - 1 - i) =
        FeHierarchicQuad.EvalReferenceShapeFunctions p a b c .positive 0 (1 - x)
          (1 + 3 * p + i)) := by
  refine ⟨?_, ?_, ?_, ?_, ?_, ?_, ?_⟩
  · intro a b
    rw [FeHierarchicTria.eval_row_edge0_neg p i a b x 0 hi,
      FeHierarchicTria.eval_row_edge0_pos p i a b (1 - x) 0 hi,
      FeHierarchicTria.edge0_flip]
  · intro a b
    rw [FeHierarchicTria.eval_row_edge1_neg p i a b x (1 - x) hi,
      FeHierarchicTria.eval_row_edge1_pos p i a b (1 - x) x hi,
      FeHierarchicTria.edge1_flip]
  · intro a b
    rw [FeHierarchicTria.eval_row_edge2_neg p i a b 0 x hi,
      FeHierarchicTria.eval_row_edge2_pos p i a b 0 (1 - x) hi,
      FeHierarchicTria.edge2_flip]
  · intro a b c
    rw [FeHierarchicQuad.eval_row_qedge0_neg p i a b c x 0 hi,
      FeHierarchicQuad.eval_row_qedge0_pos p i a b c (1 - x) 0 hi]
  · intro a b c
    rw [FeHierarchicQuad.eval_row_qedge1_neg p i a b c 1 x hi,
      FeHierarchicQuad.eval_row_qedge1_pos p i a b c 1 (1 - x) hi]
  · intro a b c
    rw [FeHierarchicQuad.eval_row_qedge2_neg p i a b c x 1 hi,
      FeHierarchicQuad.eval_row_qedge2_pos p i a b c (1 - x) 1 hi,
      show (1 : ℚ) - (1 - x) = x by ring]
  · intro a b c
    rw [FeHierarchicQuad.eval_row_qedge3_neg p i a b c 0 x hi,
      FeHierarchicQuad.eval_row_qedge3_pos p i a b c 0 (1 - x) hi,
      show (1 : ℚ) - (1 - x) = x by ring]

/-- Witness for C1 at `p = 2`, `i = 0`, `x = 1/3`. -/
theorem tria_quad_edge_orient_symmetry_witness :
    (1 ≤ 2 ∧ 0 + 2 ≤ 2 ∧ (0 : ℚ) ≤ 1/3 ∧ (1/3 : ℚ) ≤ 1) ∧
    FeHierarchicTria.EvalReferenceShapeFunctions 2 .negative .positive
        .positive (1/3) 0 (2 + 1 - 0) =
      FeHierarchicTria.EvalReferenceShapeFunctions 2 .positive .positive
        .positive (1 - 1/3) 0 (3 + 0) :=
  ⟨⟨by norm_num, by norm_num, by norm_num, by norm_num⟩,
    (tria_quad_edge_orient_symmetry 2 0 (1/3) (by norm_num) (by norm_num)
      (by norm_num) (by norm_num)).1 .positive .positive⟩

namespace FeHierarchicTria

/-- The guarded ratio never divides by zero: the ternary guard tests
exactly the denominator of the division it protects. -/
theorem guardedFracC_isSome (num den : ℚ) : (guardedFracC num den).isSome := by
  unfold guardedFracC divChk
  split_ifs with h <;> rfl

/-- The guarded ratio-derivative never divides by zero: when the guard
fails the denominator is `den * den` with `den ≠ 0`. -/
theorem guardedFracDC_isSome (num den numD denD : ℚ) :
    (guardedFracDC num den numD denD).isSome := by
  unfold guardedFracDC divChk
  split_ifs with h h2
  · rfl
  · exact absurd h2 (mul_ne_zero h h)
  · rfl

/-- Every checked edge-eval mode is defined at every point. -/
theorem edge_evalC_isSome (i : ℕ) (x y : ℚ) :
    (edge0PosC i x y).isSome ∧ (edge0NegC i x y).isSome ∧
    (edge1PosC i x y).isSome ∧ (edge1NegC i x y).isSome ∧
    (edge2PosC i x y).isSome ∧ (edge2NegC i x y).isSome := by
  refine ⟨?_, ?_, ?_, ?_, ?_, ?_⟩
  · unfold edge0PosC l122nC
    obtain ⟨v, hv⟩ := Option.isSome_iff_exists.mp (guardedFracC_isSome _ _)
    rw [hv]; rfl
  · unfold edge0NegC l121nC
    obtain ⟨v, hv⟩ := Option.isSome_iff_exists.mp (guardedFracC_isSome _ _)
    rw [hv]; rfl
  · unfold edge1PosC l233nC
    obtain ⟨v, hv⟩ := Option.isSome_iff_exists.mp (guardedFracC_isSome _ _)
    rw [hv]; rfl
  · unfold edge1NegC l232nC
    obtain ⟨v, hv⟩ := Option.isSome_iff_exists.mp (guardedFracC_isSome _ _)
    rw [hv]; rfl
  · unfold edge2PosC l311nC
    obtain ⟨v, hv⟩ := Option.isSome_iff_exists.mp (guardedFracC_isSome _ _)
    rw [hv]; rfl
  · unfold edge2NegC l313nC
    obtain ⟨v, hv⟩ := Option.isSome_iff_exists.mp (guardedFracC_isSome _ _)
    rw [hv]; rfl

/-- Every checked edge-gradient mode is defined at every point. -/
theorem edge_gradC_isSome (i : ℕ) (x y : ℚ) :
    (edge0PosGradC i x y).isSome ∧ (edge0NegGradC i x y).isSome ∧
    (edge1PosGradC i x y).isSome ∧ (edge1NegGradC i x y).isSome ∧
    (edge2PosGradC i x y).isSome ∧ (edge2NegGradC i x y).isSome := by
  refine ⟨?_, ?_, ?_, ?_, ?_, ?_⟩
  · unfold edge0PosGradC l122nC
    obtain ⟨v, hv⟩ := Option.isSome_iff_exists.mp (guardedFracC_isSome _ _)
    obtain ⟨v1, hv1⟩ := Option.isSome_iff_exists.mp (guardedFracDC_isSome _ _ _ _)
    obtain ⟨v2, hv2⟩ := Option.isSome_iff_exists.mp (guardedFracDC_isSome _ _ _ _)
    rw [hv, hv1, hv2]; rfl
  · unfold edge0NegGradC l121nC
    obtain ⟨v, hv⟩ := Option.isSome_iff_exists.mp (guardedFracC_isSome _ _)
    obtain ⟨v1, hv1⟩ := Option.isSome_iff_exists.mp (guardedFracDC_isSome _ _ _ _)
    obtain ⟨v2, hv2⟩ := Option.isSome_iff_exists.mp (guardedFracDC_isSome _ _ _ _)
    rw [hv, hv1, hv2]; rfl
  · unfold edge1PosGradC l233nC
    obtain ⟨v, hv⟩ := Option.isSome_iff_exists.mp (guardedFracC_isSome _ _)
    obtain ⟨v1, hv1⟩ := Option.isSome_iff_exists.mp (guardedFracDC_isSome _ _ _ _)
    obtain ⟨v2, hv2⟩ := Option.isSome_iff_exists.mp (guardedFracDC_isSome _ _ _ _)
    rw [hv, hv1, hv2]; rfl
  · unfold edge1NegGradC l232nC
    obtain ⟨v, hv⟩ := Option.isSome_iff_exists.mp (guardedFracC_isSome _ _)
    obtain ⟨v1, hv1⟩ := Option.isSome_iff_exists.mp (guardedFracDC_isSome _ _ _ _)
    obtain ⟨v2, hv2⟩ := Option.isSome_iff_exists.mp (guardedFracDC_isSome _ _ _ _)
    rw [hv, hv1, hv2]; rfl
  · unfold edge2PosGradC l311nC
    obtain ⟨v, hv⟩ := Option.isSome_iff_exists.mp (guardedFracC_isSome _ _)
    obtain ⟨v1, hv1⟩ := Option.isSome_iff_exists.mp (guardedFracDC_isSome _ _ _ _)
    obtain ⟨v2, hv2⟩ := Option.isSome_iff_exists.mp (guardedFracDC_isSome _ _ _ _)
    rw [hv, hv1, hv2]; rfl
  · unfold edge2NegGradC l313nC
    obtain ⟨v, hv⟩ := Option.isSome_iff_exists.mp (guardedFracC_isSome _ _)
    obtain ⟨v1, hv1⟩ := Option.isSome_iff_exists.mp (guardedFracDC_isSome _ _ _ _)
    obtain ⟨v2, hv2⟩ := Option.isSome_iff_exists.mp (guardedFracDC_isSome _ _ _ _)
    rw [hv, hv1, hv2]; rfl

/-- The checked interior bubbles and their gradients are defined at
every point, for either edge-1 orientation. -/
theorem bubbleC_isSome (o1 : Orientation) (i j : ℕ) (x y : ℚ) :
    (bubbleC o1 i j x y).isSome ∧ (bubbleGradC o1 i j x y).isSome := by
  constructor
  · unfold bubbleC
    cases o1
    · obtain ⟨v, hv⟩ :=
        Option.isSome_iff_exists.mp (edge_evalC_isSome i x y).2.2.1
      rw [hv]; rfl
    · obtain ⟨v, hv⟩ :=
        Option.isSome_iff_exists.mp (edge_evalC_isSome i x y).2.2.2.1
      rw [hv]; rfl
  · unfold bubbleGradC
    cases o1
    · obtain ⟨v, hv⟩ := Option.isSome_iff_exists.mp
        (show (l233nC x y).isSome from by
          unfold l233nC; exact guardedFracC_isSome _ _)
      obtain ⟨w, hw⟩ :=
        Option.isSome_iff_exists.mp (edge_gradC_isSome i x y).2.2.1
      rw [hv, hw]; rfl
    · obtain ⟨v, hv⟩ := Option.isSome_iff_exists.mp
        (show (l232nC x y).isSome from by
          unfold l232nC; exact guardedFracC_isSome _ _)
      obtain ⟨w, hw⟩ :=
        Option.isSome_iff_exists.mp (edge_gradC_isSome i x y).2.2.2.1
      rw [hv, hw]; rfl

end FeHierarchicTria

/-- C4: wherever a triangle edge's barycentric sum vanishes (for example
the vertex `(0,0)`, where `l2 + l3 = 0`), the evaluation substitutes 0
for the normalized ratio `lb/(la+lb)` instead of dividing, and with
every coordinate-dependent division checked (`none` = division fault),
every edge mode, every edge-mode gradient and every interior bubble of
`EvalReferenceShapeFunctions` / `GradientsReferenceShapeFunctions` is
defined at that point — no division by zero, no NaN. -/
theorem tria_degenerate_ratio_guard (p i j : ℕ) (x y : ℚ) (hp : 1 ≤ p)
    (hdeg : FeHierarchicTria.l1 x y + FeHierarchicTria.l2 x y = 0 ∨
      FeHierarchicTria.l2 x y + FeHierarchicTria.l3 x y = 0 ∨
      FeHierarchicTria.l3 x y + FeHierarchicTria.l1 x y = 0) :
    (FeHierarchicTria.l2 x y + FeHierarchicTria.l3 x y = 0 →
      FeHierarchicTria.l232nC x y = some 0 ∧
      FeHierarchicTria.l233nC x y = some 0) ∧
    (FeHierarchicTria.l1 x y + FeHierarchicTria.l2 x y = 0 →
      FeHierarchicTria.l121nC x y = some 0 ∧
      FeHierarchicTria.l122nC x y = some 0) ∧
    (FeHierarchicTria.l3 x y + FeHierarchicTria.l1 x y = 0 →
      FeHierarchicTria.l313nC x y = some 0 ∧
      FeHierarchicTria.l311nC x y = some 0) ∧
    (i + 2 ≤ p →
      (FeHierarchicTria.edge0PosC i x y).isSome ∧
      (FeHierarchicTria.edge0NegC i x y).isSome ∧
      (FeHierarchicTria.edge1PosC i x y).isSome ∧
      (FeHierarchicTria.edge1NegC i x y).isSome ∧
      (FeHierarchicTria.edge2PosC i x y).isSome ∧
      (FeHierarchicTria.edge2NegC i x y).isSome ∧
      (FeHierarchicTria.edge0PosGradC i x y).isSome ∧
      (FeHierarchicTria.edge0NegGradC i x y).isSome ∧
      (FeHierarchicTria.edge1PosGradC i x y).isSome ∧
      (FeHierarchicTria.edge1NegGradC i x y).isSome ∧
      (FeHierarchicTria.edge2PosGradC i x y).isSome ∧
      (FeHierarchicTria.edge2NegGradC i x y).isSome) ∧
    (i + j + 3 ≤ p → ∀ o1 : Orientation,
      (FeHierarchicTria.bubbleC o1 i j x y).isSome ∧
      (FeHierarchicTria.bubbleGradC o1 i j x y).isSome) := by
  refine ⟨?_, ?_, ?_, ?_, ?_⟩
  · intro h
    unfold FeHierarchicTria.l232nC FeHierarchicTria.l233nC
      FeHierarchicTria.guardedFracC
    rw [if_pos h, if_pos h]
    exact ⟨rfl, rfl⟩
  · intro h
    unfold FeHierarchicTria.l121nC FeHierarchicTria.l122nC
      FeHierarchicTria.guardedFracC
    rw [if_pos h, if_pos h]
    exact ⟨rfl, rfl⟩
  · intro h
    unfold FeHierarchicTria.l313nC FeHierarchicTria.l311nC
      FeHierarchicTria.guardedFracC
    rw [if_pos h, if_pos h]
    exact ⟨rfl, rfl⟩
  · intro _
    obtain ⟨e1, e2, e3, e4, e5, e6⟩ := FeHierarchicTria.edge_evalC_isSome i x y
    obtain ⟨g1, g2, g3, g4, g5, g6⟩ := FeHierarchicTria.edge_gradC_isSome i x y
    exact ⟨e1, e2, e3, e4, e5, e6, g1, g2, g3, g4, g5, g6⟩
  · intro _ o1
    exact FeHierarchicTria.bubbleC_isSome o1 i j x y

/-- Witness for C4 at the vertex `(0, 0)` (where `l2 + l3 = 0`) with
`p = 3`, `i = j = 0`. -/
theorem tria_degenerate_ratio_guard_witness :
    (1 ≤ 3 ∧
      (FeHierarchicTria.l2 0 0 + FeHierarchicTria.l3 0 0 = 0 ∨ False)) ∧
    (FeHierarchicTria.l232nC 0 0 = some 0 ∧
      FeHierarchicTria.l233nC 0 0 = some 0) := by
  refine ⟨⟨by norm_num, Or.inl (by norm_num [FeHierarchicTria.l2,
    FeHierarchicTria.l3])⟩, ?_⟩
  exact (tria_degenerate_ratio_guard 3 0 0 0 0 (by norm_num)
    (Or.inr (Or.inl (by norm_num [FeHierarchicTria.l2,
      FeHierarchicTria.l3])))).1
    (by norm_num [FeHierarchicTria.l2, FeHierarchicTria.l3])

namespace LegendrePoly

variable {K : Type} [Field K]

/-- The eval-loop state is the pair of consecutive recurrence values. -/
theorem legPair_eq (t : K) (n : ℕ) :
    legPair t n = (legT t n, legT t (n + 1)) := by
  induction n with
  | zero => rfl
  | succ k ih => simp only [legPair, ih, legT]

/-- `LegendrePoly::eval` computes the three-term recurrence `legT` in the
remapped variable. -/
theorem eval_eq_legT (n : ℕ) (x : K) : eval n x = legT (2 * x - 1) n := by
  cases n with
  | zero => rfl
  | succ m =>
    show (legPair (2 * x - 1) m).2 = _
    rw [legPair_eq]

/-- The integral-loop state is the triple of consecutive recurrence
values. -/
theorem legTriple_eq (t : K) (n : ℕ) :
    legTriple t n = (legT t n, legT t (n + 1), legT t (n + 2)) := by
  induction n with
  | zero =>
    refine Prod.ext rfl (Prod.ext rfl ?_)
    show (3 * t * t - 1) / 2 = legT t 2
    simp only [legT]
    push_cast
    ring
  | succ k ih =>
    simp only [legTriple, ih]
    refine Prod.ext rfl (Prod.ext rfl ?_)
    show _ = legT t (k + 3)
    simp only [legT]
    push_cast
    ring

/-- `LegendrePoly::integral` for `n ≥ 2` is
`(L_n - L_{n-2})/(4n-2)` in the remapped variable. -/
theorem integral_eq (m : ℕ) (x : K) :
    integral (m + 2) x =
      (legT (2 * x - 1) (m + 2) - legT (2 * x - 1) m)
        / (4 * ((m : K) + 2) - 2) := by
  show ((legTriple (2 * x - 1) m).2.2 - (legTriple (2 * x - 1) m).1)
      / (4 * ((m : K) + 2) - 2) = _
  rw [legTriple_eq]

/-- `legT 1 n = 1` (value at the right endpoint `x = 1`). -/
theorem legT_one (n : ℕ) : legT (1 : ℚ) n = 1 := by
  have key : ∀ m, legT (1 : ℚ) m = 1 ∧ legT (1 : ℚ) (m + 1) = 1 := by
    intro m
    induction m with
    | zero => exact ⟨rfl, rfl⟩
    | succ k ih =>
      refine ⟨ih.2, ?_⟩
      show ((2 * ((k : ℚ) + 1) + 1) * 1 * legT 1 (k + 1)
          - ((k : ℚ) + 1) * legT 1 k) / ((k : ℚ) + 2) = 1
      rw [ih.1, ih.2]
      have hnz : ((k : ℚ) + 2) ≠ 0 := by positivity
      field_simp
      ring
  exact (key n).1

/-- `legT (-1) n = (-1)^n` (value at the left endpoint `x = 0`). -/
theorem legT_negone (n : ℕ) : legT (-1 : ℚ) n = (-1) ^ n := by
  have key : ∀ m, legT (-1 : ℚ) m = (-1) ^ m ∧
      legT (-1 : ℚ) (m + 1) = (-1) ^ (m + 1) := by
    intro m
    induction m with
    | zero => exact ⟨rfl, by simp [legT]⟩
    | succ k ih =>
      refine ⟨ih.2, ?_⟩
      show ((2 * ((k : ℚ) + 1) + 1) * (-1) * legT (-1) (k + 1)
          - ((k : ℚ) + 1) * legT (-1) k) / ((k : ℚ) + 2) = (-1) ^ (k + 2)
      rw [ih.1, ih.2]
      have hnz : ((k : ℚ) + 2) ≠ 0 := by positivity
      rw [pow_succ, pow_succ]
      field_simp
      ring
  exact (key n).1

/-- Each interior bubble vanishes at the left endpoint:
`integral n 0 = 0` for `n ≥ 2`. -/
theorem integral_zero_at_zero (m : ℕ) : integral (m + 2) (0 : ℚ) = 0 := by
  rw [integral_eq, show 2 * (0 : ℚ) - 1 = -1 by norm_num, legT_negone,
    legT_negone, pow_succ, pow_succ]
  ring_nf

/-- Each interior bubble vanishes at the right endpoint:
`integral n 1 = 0` for `n ≥ 2`. -/
theorem integral_zero_at_one (m : ℕ) : integral (m + 2) (1 : ℚ) = 0 := by
  rw [integral_eq, show 2 * (1 : ℚ) - 1 = 1 by norm_num, legT_one, legT_one]
  ring_nf

/-- The polynomial recurrence evaluates to `legT`. -/
theorem legPoly_eval (n : ℕ) (t : ℚ) : (legPoly n).eval t = legT t n := by
  have key : ∀ m, (legPoly m).eval t = legT t m ∧
      (legPoly (m + 1)).eval t = legT t (m + 1) := by
    intro m
    induction m with
    | zero => exact ⟨by simp [legPoly, legT], by simp [legPoly, legT]⟩
    | succ k ih =>
      refine ⟨ih.2, ?_⟩
      show (legPoly (k + 2)).eval t = legT t (k + 2)
      simp only [legPoly, legT, Polynomial.eval_mul, Polynomial.eval_sub,
        Polynomial.eval_C, Polynomial.eval_X, ih.1, ih.2]
      rw [div_eq_mul_inv]
      ring
  exact (key n).1

/-- The polynomial recurrence with the leading denominator cleared. -/
theorem legPoly_rec (n : ℕ) :
    Polynomial.C ((n : ℚ) + 2) * legPoly (n + 2) =
      Polynomial.C (2 * (n : ℚ) + 3) * (Polynomial.X * legPoly (n + 1))
        - Polynomial.C ((n : ℚ) + 1) * legPoly n := by
  have hnz : ((n : ℚ) + 2) ≠ 0 := by positivity
  show Polynomial.C ((n : ℚ) + 2) *
      (Polynomial.C (((n : ℚ) + 2)⁻¹) * _) = _
  rw [← mul_assoc, ← Polynomial.C_mul, mul_inv_cancel₀ hnz, Polynomial.C_1,
    one_mul]

/-- The two classical derivative identities
`x·L_{n+1}' = L_n' + (n+1)·L_{n+1}` and
`L_{n+1}' = x·L_n' + (n+1)·L_n`, proved jointly by induction from the
three-term recurrence. -/
theorem legPoly_deriv_BC (n : ℕ) :
    Polynomial.X * (legPoly (n + 1)).derivative =
        (legPoly n).derivative + Polynomial.C ((n : ℚ) + 1) * legPoly (n + 1) ∧
      (legPoly (n + 1)).derivative =
        Polynomial.X * (legPoly n).derivative
          + Polynomial.C ((n : ℚ) + 1) * legPoly n := by
  induction n with
  | zero =>
    constructor
    · show Polynomial.X * (Polynomial.X : Polynomial ℚ).derivative =
        (1 : Polynomial ℚ).derivative + Polynomial.C ((0 : ℚ) + 1) * Polynomial.X
      simp
    · show (Polynomial.X : Polynomial ℚ).derivative =
        Polynomial.X * (1 : Polynomial ℚ).derivative
          + Polynomial.C ((0 : ℚ) + 1) * 1
      simp
  | succ k ih =>
    obtain ⟨hB, hC⟩ := ih
    have hrec := legPoly_rec k
    have hrecd := congrArg Polynomial.derivative (legPoly_rec k)
    simp only [Polynomial.derivative_mul, Polynomial.derivative_C, zero_mul,
      zero_add, Polynomial.derivative_sub, Polynomial.derivative_X,
      one_mul] at hrecd
    have hCnz : (Polynomial.C ((k : ℚ) + 2)) ≠ 0 :=
      Polynomial.C_ne_zero.mpr (by positivity)
    push_cast at hrec hrecd hB hC ⊢
    simp only [map_add, map_mul, map_ofNat, map_one] at hrec hrecd hB hC ⊢
    constructor
    · refine mul_left_cancel₀ hCnz ?_
      simp only [map_add, map_mul, map_ofNat, map_one]
      linear_combination (Polynomial.X : Polynomial ℚ) * hrecd
        - (Polynomial.C (k : ℚ) + 2) * hrec
        + ((2 * Polynomial.C (k : ℚ) + 3) * Polynomial.X) * hB
        - (Polynomial.C (k : ℚ) + 2) * hC
    · refine mul_left_cancel₀ hCnz ?_
      simp only [map_add, map_mul, map_ofNat, map_one]
      linear_combination hrecd + (Polynomial.C (k : ℚ) + 1) * hB

/-- `L_{n+2}' - L_n' = (2n+3)·L_{n+1}`: the identity behind the
integrated-Legendre derivative. -/
theorem legPoly_deriv_diff (n : ℕ) :
    (legPoly (n + 2)).derivative - (legPoly n).derivative =
      Polynomial.C (2 * (n : ℚ) + 3) * legPoly (n + 1) := by
  have h1 := (legPoly_deriv_BC (n + 1)).2
  have h2 := (legPoly_deriv_BC n).1
  push_cast at h1 h2 ⊢
  simp only [map_add, map_mul, map_ofNat, map_one] at h1 h2 ⊢
  linear_combination h1 + h2

/-- The derivative of the integrated-Legendre polynomial of degree
`n ≥ 2` is the Legendre polynomial of degree `n-1` (both in the
unit-interval variable). -/
theorem integralPoly_deriv (m : ℕ) :
    (integralPoly (m + 2)).derivative = evalPoly (m + 1) := by
  have hm : (0 : ℚ) ≤ (m : ℚ) := Nat.cast_nonneg m
  have hnz : (4 * ((m : ℚ) + 2) - 2) ≠ 0 := by linarith
  show (Polynomial.C ((4 * ((m + 2 : ℕ) : ℚ) - 2)⁻¹) *
      ((legPoly (m + 2) - legPoly (m + 2 - 2)).comp
        (Polynomial.C 2 * Polynomial.X - Polynomial.C 1))).derivative = _
  rw [show (m + 2 - 2 : ℕ) = m from rfl]
  rw [Polynomial.derivative_C_mul, Polynomial.derivative_comp]
  simp only [Polynomial.derivative_sub, Polynomial.derivative_mul,
    Polynomial.derivative_C, Polynomial.derivative_X, zero_mul, mul_one,
    zero_add, sub_zero]
  rw [legPoly_deriv_diff]
  rw [Polynomial.mul_comp, Polynomial.C_comp]
  rw [← mul_assoc, ← mul_assoc, ← Polynomial.C_mul, ← Polynomial.C_mul]
  rw [show ((4 * ((m + 2 : ℕ) : ℚ) - 2)⁻¹ * 2 * (2 * (m : ℚ) + 3)) = 1 by
    push_cast
    field_simp
    ring]
  rw [Polynomial.C_1, one_mul]
  rfl

/-- The integrated-Legendre polynomial evaluates to
`LegendrePoly::integral` for `n ≥ 2`. -/
theorem integralPoly_eval (m : ℕ) (x : ℚ) :
    (integralPoly (m + 2)).eval x = integral (m + 2) x := by
  show (Polynomial.C ((4 * ((m + 2 : ℕ) : ℚ) - 2)⁻¹) *
      ((legPoly (m + 2) - legPoly (m + 2 - 2)).comp
        (Polynomial.C 2 * Polynomial.X - Polynomial.C 1))).eval x = _
  rw [show (m + 2 - 2 : ℕ) = m from rfl]
  rw [Polynomial.eval_mul, Polynomial.eval_C, Polynomial.eval_comp]
  simp only [Polynomial.eval_sub, Polynomial.eval_mul, Polynomial.eval_C,
    Polynomial.eval_X]
  rw [legPoly_eval, legPoly_eval, integral_eq]
  push_cast
  rw [div_eq_mul_inv]
  ring

/-- The Legendre polynomial evaluates to `LegendrePoly::eval`. -/
theorem evalPoly_eval (n : ℕ) (x : ℚ) :
    (evalPoly n).eval x = eval n x := by
  show ((legPoly n).comp
      (Polynomial.C 2 * Polynomial.X - Polynomial.C 1)).eval x = _
  rw [Polynomial.eval_comp]
  simp only [Polynomial.eval_sub, Polynomial.eval_mul, Polynomial.eval_C,
    Polynomial.eval_X]
  rw [legPoly_eval, eval_eq_legT]

end LegendrePoly

/-- C6: segment interior bubble `k` has value the integrated Legendre
polynomial of degree `k+2` and gradient the Legendre polynomial of
degree `k+1`; the gradient is the exact derivative of the value as a
polynomial over `ℚ` (`integralPoly`/`evalPoly` are the polynomials whose
evaluations are those functions, and
`derivative (integralPoly (k+2)) = evalPoly (k+1)`); consequently each
bubble vanishes at both endpoints `x = 0` and `x = 1`. -/
theorem segment_bubble_integrated_legendre (p k : ℕ) (x : ℚ) (hp : 1 ≤ p)
    (hk : k + 2 ≤ p) :
    FeHierarchicSegment.EvalReferenceShapeFunctions p [] x (k + 2) =
      LegendrePoly.integral (k + 2) x ∧
    FeHierarchicSegment.GradientsReferenceShapeFunctions p [] x (k + 2) =
      LegendrePoly.eval (k + 1) x ∧
    (∀ y : ℚ, (LegendrePoly.integralPoly (k + 2)).eval y =
      LegendrePoly.integral (k + 2) y) ∧
    (∀ y : ℚ, (LegendrePoly.evalPoly (k + 1)).eval y =
      LegendrePoly.eval (k + 1) y) ∧
    (LegendrePoly.integralPoly (k + 2)).derivative =
      LegendrePoly.evalPoly (k + 1) ∧
    FeHierarchicSegment.EvalReferenceShapeFunctions p [] (0 : ℚ) (k + 2) = 0 ∧
    FeHierarchicSegment.EvalReferenceShapeFunctions p [] (1 : ℚ) (k + 2) = 0 := by
  refine ⟨rfl, rfl, fun y => LegendrePoly.integralPoly_eval k y,
    fun y => LegendrePoly.evalPoly_eval (k + 1) y,
    LegendrePoly.integralPoly_deriv k, ?_, ?_⟩
  · show LegendrePoly.integral (k + 2) (0 : ℚ) = 0
    exact LegendrePoly.integral_zero_at_zero k
  · show LegendrePoly.integral (k + 2) (1 : ℚ) = 0
    exact LegendrePoly.integral_zero_at_one k

/-- Witness for C6 at `p = 3`, `k = 1`, `x = 1/3`. -/
theorem segment_bubble_integrated_legendre_witness :
    (1 ≤ 3 ∧ 1 + 2 ≤ 3) ∧
    FeHierarchicSegment.EvalReferenceShapeFunctions 3 [] (1/3 : ℚ) (1 + 2) =
      LegendrePoly.integral (1 + 2) (1/3 : ℚ) :=
  ⟨⟨by norm_num, by norm_num⟩,
    (segment_bubble_integrated_legendre 3 1 (1/3) (by norm_num)
      (by norm_num)).1⟩

end lf
